import Mathlib

/-!
Verification of the `data-engineering-for-gies` spatial integration pipeline.

The development shallowly embeds the data flow of `3_integrate.py` (spatial
join of ADM2 onto ADM1, max-overlap parent selection, the 0.5 overlap gate,
the treatment left-merge, categorical zonal statistics with the column filter
and inner-join fold, and the two-file export), the skip logic of
`dl_gb_item` in `1_boundary.py`, and `get_config` in `config.py`.

Planar geometry is modelled discretely: a geometry is a finite set of unit
cells, its area is the number of cells, intersection is set intersection and
the shapely `intersects` predicate is nonemptiness of the intersection.  The
pandas operations (`sjoin`, `merge`, `groupby(...).idxmax`, `fillna`, column
projection, `reduce`-fold of `pd.merge`) are translated to explicit list
computations that preserve row order and first-occurrence tie-breaking.
Column names are embedded structurally: the raster-stat columns that
`rasterstats` emits as `f"{raster_id}_{label}"` are `Col.stat year label`,
distinct from every plain dataframe column `Col.base name` exactly as the
distinct `esa_lc_{year}_` prefixes keep them distinct from the base columns
in the source.
-/

namespace Gies

/-- Planar geometry as a finite set of unit cells: `.area` is the cell count,
intersection is cell-set intersection (models the shapely geometry calls in
`3_integrate.py` line 57). -/
structure Geom where
  cells : Finset ℕ
deriving DecidableEq

/-- `shapely` `.area`: number of unit cells, as a rational so that overlap
fractions are exact. -/
def Geom.area (g : Geom) : ℚ := g.cells.card

/-- `shapely` `.intersection`. -/
def Geom.inter (g h : Geom) : Geom := ⟨g.cells ∩ h.cells⟩

/-- `shapely` `.intersects` (the `predicate="intersects"` of the sjoin):
true when the two geometries share at least one cell. -/
def Geom.intersects (g h : Geom) : Bool := decide (g.cells ∩ h.cells).Nonempty

/-- One row of a geoBoundaries layer after the column drop in
`3_integrate.py` lines 41-43: `shapeID`, `shapeName`, `geometry`. -/
structure Feature where
  shapeID : String
  shapeName : String
  geom : Geom
deriving DecidableEq

/-- `adm2_gdf.sjoin(adm1_gdf, how="inner", predicate="intersects", ...)`
(line 48): one row per intersecting (adm2, adm1) pair, in left-row-major
order as pandas produces it. -/
def sjoinPairs (fine coarse : List Feature) : List (Feature × Feature) :=
  fine.flatMap fun c =>
    (coarse.filter fun p => c.geom.intersects p.geom).map fun p => (c, p)

/-- A row of `adm2_gdf` after the sjoin, the adm1-geometry merge (line 51)
and the overlap computation (line 57): the adm2 feature's columns plus the
matched adm1 id, name and geometry and the `overlap_adm1` fraction. -/
structure OverlapRow where
  child : Feature
  parentID : String
  parentName : String
  parentGeom : Geom
  overlap : ℚ
deriving DecidableEq

/-- Lines 48-57 of `3_integrate.py`: the sjoin rows with
`overlap_adm1 = x.geometry.intersection(x.geometry_adm1).area / x.geometry.area`. -/
def overlapRows (fine coarse : List Feature) : List OverlapRow :=
  (sjoinPairs fine coarse).map fun cp =>
    { child := cp.1
      parentID := cp.2.shapeID
      parentName := cp.2.shapeName
      parentGeom := cp.2.geom
      overlap := (cp.1.geom.inter cp.2.geom).area / cp.1.geom.area }

/-- One step of pandas `idxmax`: keep the incumbent unless the new row is
strictly larger (so the first maximum wins, as `idxmax` returns the first
occurrence of the maximum). -/
def betterRow (b r : OverlapRow) : OverlapRow := if b.overlap < r.overlap then r else b

/-- `Series.idxmax` over a list of rows: the first row attaining the maximal
`overlap` value, `none` on an empty list. -/
def firstMax (rs : List OverlapRow) : Option OverlapRow :=
  rs.foldl (fun acc r =>
    match acc with
    | none => some r
    | some b => some (betterRow b r)) none

/-- The distinct `shapeID_adm2` values (pandas group keys). -/
def childIDs (rows : List OverlapRow) : List String :=
  (rows.map fun r => r.child.shapeID).dedup

/-- Line 61: `adm2_gdf.loc[adm2_gdf.groupby("shapeID_adm2")["overlap_adm1"].idxmax()]`,
keeping for each adm2 id the (first) row with the largest `overlap_adm1`. -/
def selectMaxOverlap (rows : List OverlapRow) : List OverlapRow :=
  (childIDs rows).filterMap fun cid =>
    firstMax (rows.filter fun r => r.child.shapeID == cid)

/-- The assert on line 64: `adm2_gdf.overlap_adm1.min() > 0.5`.  On an empty
frame pandas `min()` is `NaN` and `NaN > 0.5` is falsy, so the assert also
fires on an empty selection. -/
def gatePasses (sel : List OverlapRow) : Bool :=
  !sel.isEmpty && sel.all fun r => decide ((1 : ℚ) / 2 < r.overlap)

/-- The fixed message of the assert on line 64 of `3_integrate.py`. -/
def assertMsg : String := "Overlap is less than 50% for some polygons"

/-- A row of `adm2_gdf` after the treatment merge (lines 74-75): the overlap
row plus the `treatment` column, `none` when the left join found no match
(pandas NaN). -/
structure MergedRow where
  row : OverlapRow
  treatment : Option Int
deriving DecidableEq

/-- Lines 74-75: `adm2_gdf.merge(treatment_df[["shapeID", "treatment"]],
how="left", left_on="shapeID_adm2", right_on="shapeID")`.  For each base row
in order, pandas emits one output row per matching attribute record, and a
single row with NaN when there is no match. -/
def leftMergeTreatment (base : List OverlapRow) (tr : List (String × Int)) :
    List MergedRow :=
  base.flatMap fun b =>
    if (tr.filter fun t => t.1 == b.child.shapeID).isEmpty then
      [{ row := b, treatment := none }]
    else
      (tr.filter fun t => t.1 == b.child.shapeID).map fun m =>
        { row := b, treatment := some m.2 }

/-- A dataframe column name: `Col.base n` is an ordinary column `n`;
`Col.stat year label` is the zonal-stats column `f"esa_lc_{year}_{label}"`
(the distinct year prefixes keep these distinct from each other and from
every base column, which the constructors encode). -/
inductive Col where
  | base (name : String)
  | stat (year : ℕ) (label : String)
deriving DecidableEq

/-- A dataframe cell value; `missing` is pandas NaN. -/
inductive Val where
  | num (q : ℚ)
  | str (s : String)
  | geo (g : Geom)
  | missing
deriving DecidableEq

/-- A dataframe row: column/value pairs in column order. -/
abbrev Row := List (Col × Val)

/-- `id_field = "shapeID_adm2"` (line 81). -/
def idField : Col := .base "shapeID_adm2"

/-- The columns of `adm2_gdf` (= `results[0]`) when the zonal-stats loop
starts: adm2 id/name/geometry, the adm1 columns from the sjoin and geometry
merge, `overlap_adm1` and `treatment`. -/
def baseCols : List Col :=
  [.base "shapeName_adm2", .base "shapeID_adm2", .base "geometry",
   .base "shapeName_adm1", .base "shapeID_adm1", .base "geometry_adm1",
   .base "overlap_adm1", .base "treatment"]

/-- The `treatment` column's value: NaN when the left merge had no match. -/
def valOfTreatment : Option Int → Val
  | none => .missing
  | some t => .num t

/-- A `MergedRow` as a dataframe row with the columns of `results[0]`. -/
def mergedRowToRow (m : MergedRow) : Row :=
  [(.base "shapeName_adm2", .str m.row.child.shapeName),
   (.base "shapeID_adm2", .str m.row.child.shapeID),
   (.base "geometry", .geo m.row.child.geom),
   (.base "shapeName_adm1", .str m.row.parentName),
   (.base "shapeID_adm1", .str m.row.parentID),
   (.base "geometry_adm1", .geo m.row.parentGeom),
   (.base "overlap_adm1", .num m.row.overlap),
   (.base "treatment", valOfTreatment m.treatment)]

/-- A categorical raster after `category_map` application: a list of
(cell, category label) pixels.  Cells not listed are outside the raster
extent. -/
abbrev Raster := List (ℕ × String)

/-- Categorical zonal statistics with `all_touched=True` for one polygon and
one label: the number of raster pixels carrying `label` whose cell touches
the polygon. -/
def catCount (g : Geom) (raster : Raster) (label : String) : ℕ :=
  (raster.filter fun cl => decide (cl.1 ∈ g.cells) && (cl.2 == label)).length

/-- The category labels `rasterstats` reports for one polygon: exactly the
labels with a positive pixel count (`np.unique` of the masked pixels). -/
def observedLabels (g : Geom) (raster : Raster) : List String :=
  ((raster.filter fun cl => decide (cl.1 ∈ g.cells)).map Prod.snd).dedup

/-- The stat columns of `gpd.GeoDataFrame.from_features(tmp_stats)`: the
union of the per-feature label sets, in first-appearance order. -/
def statLabels (merged : List MergedRow) (raster : Raster) : List String :=
  ((merged.map fun m => observedLabels m.row.child.geom raster).flatten).dedup

/-- The value of a stat column before `fillna(0)`: a count when the feature
observed the label, NaN otherwise (absent key in the feature's stats dict). -/
def rawStatVal (g : Geom) (raster : Raster) (label : String) : Val :=
  if catCount g raster label = 0 then .missing else .num (catCount g raster label)

/-- One row of `tmp_gdf = gpd.GeoDataFrame.from_features(tmp_stats)`
(line 106): all properties of the input feature (the `results[0]` columns)
followed by one column per observed stat label, prefixed by the raster id
(`Col.stat year label`). -/
def tmpRowRaw (year : ℕ) (raster : Raster) (labels : List String) (m : MergedRow) : Row :=
  mergedRowToRow m ++ labels.map fun l => (Col.stat year l, rawStatVal m.row.child.geom raster l)

/-- `tmp_gdf.fillna(0)` (line 107), applied to every column of the row. -/
def fillnaRow (r : Row) : Row :=
  r.map fun cv => (cv.1, if cv.2 = Val.missing then Val.num 0 else cv.2)

/-- The column filter of line 110:
`[i for i in tmp_gdf.columns if i not in results[0].columns or i == id_field]`. -/
def keepCol (c : Col) : Bool := !baseCols.contains c || (c == idField)

/-- Project a row onto the columns kept by `keepCol`. -/
def filterTmpRow (r : Row) : Row := r.filter fun cv => keepCol cv.1

/-- One iteration of the zonal-stats loop (lines 98-112) for the raster of a
given year: per polygon the `from_features` row, `fillna(0)`, then the
column filter against `results[0]`. -/
def zonalTmp (merged : List MergedRow) (year : ℕ) (raster : Raster) : List Row :=
  let labels := statLabels merged raster
  merged.map fun m => filterTmpRow (fillnaRow (tmpRowRaw year raster labels m))

/-- The value a row holds in the `id_field` column. -/
def rowKey (r : Row) : Option Val := (r.find? fun cv => cv.1 == idField).map Prod.snd

/-- Joining two matched rows in `pd.merge(..., on=id_field)`: the left row's
columns followed by the right row's columns minus the join key. -/
def mergeTwoRows (lr rr : Row) : Row := lr ++ rr.filter fun cv => cv.1 != idField

/-- `pd.merge(left, right, on=id_field, how='inner')` (line 116): for each
left row in order, one output row per right row with an equal join key. -/
def innerMergeT (l r : List Row) : List Row :=
  l.flatMap fun lr => (r.filter fun rr => rowKey rr == rowKey lr).map fun rr => mergeTwoRows lr rr

/-- Line 116: `reduce(lambda left,right: pd.merge(left, right, on=id_field,
how='inner'), results)` with `results = [adm2_gdf, tmp_gdf_1, ...]`. -/
def zonalFold (merged : List MergedRow) (rasters : List (ℕ × Raster)) : List Row :=
  (rasters.map fun yr => zonalTmp merged yr.1 yr.2).foldl innerMergeT
    (merged.map mergedRowToRow)

/-- The accumulating table after the first `k` fold steps. -/
def accumAfter (merged : List MergedRow) (rasters : List (ℕ × Raster)) (k : ℕ) : List Row :=
  ((rasters.take k).map fun yr => zonalTmp merged yr.1 yr.2).foldl innerMergeT
    (merged.map mergedRowToRow)

/-- The stat suffix a fold step appends to the row of polygon `m`: one
column per stat label of the raster, holding the (fillna'd) pixel count. -/
def statPairsFor (merged : List MergedRow) (yr : ℕ × Raster) (m : MergedRow) : Row :=
  (statLabels merged yr.2).map fun l =>
    (Col.stat yr.1 l, Val.num (catCount m.row.child.geom yr.2 l))

/-- Line 119: `output_gdf.drop(columns=["geometry_adm1"])`. -/
def dropGeomAdm1 (r : Row) : Row := r.filter fun cv => cv.1 != Col.base "geometry_adm1"

/-- The final `output_gdf` of `3_integrate.py`. -/
def outputTable (merged : List MergedRow) (rasters : List (ℕ × Raster)) : List Row :=
  (zonalFold merged rasters).map dropGeomAdm1

/-- `base_path / "output" / "ghana_adm2_data.csv"`. -/
def outputCsvPath : String := "output/ghana_adm2_data.csv"

/-- `base_path / "output" / "ghana_adm2_data.geojson"`. -/
def outputGeojsonPath : String := "output/ghana_adm2_data.geojson"

/-- The inputs of one run of `3_integrate.py`: the two boundary layers, the
treatment table, and the per-year rasters in iteration order. -/
structure PipelineInput where
  fine : List Feature
  coarse : List Feature
  treatment : List (String × Int)
  rasters : List (ℕ × Raster)
deriving DecidableEq

/-- The observable outcome of a run: the output files written (in order),
the uncaught exception if any, and the final table when the run completed. -/
structure RunResult where
  written : List String
  error : Option String
  table : Option (List Row)
deriving DecidableEq

/-- The whole `3_integrate.py` script: spatial join and overlap selection,
the 0.5-overlap assert, treatment left-merge, zonal statistics fold, then
the CSV and GeoJSON writes (lines 126-132) — which happen only after every
earlier stage succeeded. -/
def runPipeline (inp : PipelineInput) : RunResult :=
  let sel := selectMaxOverlap (overlapRows inp.fine inp.coarse)
  if gatePasses sel then
    let merged := leftMergeTreatment sel inp.treatment
    let out := outputTable merged inp.rasters
    { written := [outputCsvPath, outputGeojsonPath], error := none, table := some out }
  else
    { written := [], error := some assertMsg, table := none }

/-- Observable outcome of the export section (lines 126-132): which files
exist afterwards and the uncaught exception, if any. -/
structure ExportResult where
  written : List String
  error : Option String
deriving DecidableEq

/-- The export section: `to_csv` then `to_file`, with no error handling and
no cleanup.  `csvOk`/`geoOk` model whether each underlying write succeeds;
a failing write raises, aborting the script but leaving earlier files on
disk. -/
def exportResults (csvOk geoOk : Bool) : ExportResult :=
  if csvOk then
    if geoOk then { written := [outputCsvPath, outputGeojsonPath], error := none }
    else { written := [outputCsvPath], error := some "to_file failed" }
  else { written := [], error := some "to_csv failed" }

/-- Outcome of `dl_gb_item` in `1_boundary.py`: the files present afterwards
and whether the item was (re)downloaded rather than skipped. -/
structure DlResult where
  files : List String
  downloaded : Bool
deriving DecidableEq

/-- Add a file to the file-system model (writing is idempotent on the set of
existing paths). -/
def addFile (f : String) (fs : List String) : List String :=
  if f ∈ fs then fs else fs ++ [f]

/-- `dl_gb_item` of `1_boundary.py` (lines 101-183) for one item, over a
file-system state `fs`.  The skip condition (lines 145-147) requires the
`.gpkg`, `.geojson` and `.meta.json` outputs to all exist; otherwise the
item is downloaded and written.  The `gdf.to_file(gpkg_path, driver="GPKG")`
call is commented out in the source (line 172), so a download writes only
the `.geojson` and the `.meta.json` sidecar. -/
def dl_gb_item (fname : String) (overwrite : Bool) (fs : List String) : DlResult :=
  let gpkg := fname ++ ".gpkg"
  let geojson := fname ++ ".geojson"
  let meta := fname ++ ".meta.json"
  if gpkg ∈ fs ∧ geojson ∈ fs ∧ meta ∈ fs ∧ ¬overwrite then
    { files := fs, downloaded := false }
  else
    { files := addFile meta (addFile geojson fs), downloaded := true }

/-- What `get_config` in `config.py` evaluates to: either the parsed TOML
dictionary or — when the file does not exist — a `FileNotFoundError`
exception object returned (not raised) as the function's value. -/
inductive ConfigResult where
  | config (entries : List (String × String))
  | fileNotFoundError (msg : String)
deriving DecidableEq

/-- The Python exception a caller hits later. -/
inductive PyError where
  | typeError
  | keyError
deriving DecidableEq

/-- `get_config(config_path)` over a model of the file system: a list of
(path, parsed TOML) pairs.  When the path exists the parsed dictionary is
returned; otherwise the function returns (does not raise) a
`FileNotFoundError` object. -/
def get_config (toml : List (String × List (String × String))) (path : String) :
    ConfigResult :=
  match toml.find? (fun p => p.1 == path) with
  | some p => .config p.2
  | none => .fileNotFoundError "No TOML config file found for dataset."

/-- Python subscripting `config[key]` on the value `get_config` returned:
indexing a dict looks the key up (`KeyError` when absent); indexing a
`FileNotFoundError` exception object raises `TypeError` because the object
is not subscriptable. -/
def ConfigResult.getItem : ConfigResult → String → Except PyError String
  | .config es, k =>
    match es.find? (fun p => p.1 == k) with
    | some p => .ok p.2
    | none => .error .keyError
  | .fileNotFoundError _, _ => .error .typeError

/-! ### Concrete fixtures used by witnesses and counterexamples -/

/-- Concrete fixture: adm1 region X covering cells {0,1,2,3,4}. -/
def featX : Feature := { shapeID := "X", shapeName := "Region X", geom := ⟨{0, 1, 2, 3, 4}⟩ }

/-- Concrete fixture: adm1 region Y covering cells {5,6,7}. -/
def featY : Feature := { shapeID := "Y", shapeName := "Region Y", geom := ⟨{5, 6, 7}⟩ }

/-- Concrete fixture: adm2 district A fully inside X. -/
def featA : Feature := { shapeID := "A", shapeName := "District A", geom := ⟨{0, 1}⟩ }

/-- Concrete fixture: adm2 district B, 3 cells in X and 2 in Y. -/
def featB : Feature := { shapeID := "B", shapeName := "District B", geom := ⟨{2, 3, 4, 5, 6}⟩ }

/-- Concrete fixture: adm2 district QX with only 1 of its 3 cells inside X
(overlap 1/3 ≤ 0.5, so it violates the overlap gate). -/
def featQX : Feature := { shapeID := "QX", shapeName := "District QX", geom := ⟨{4, 8, 9}⟩ }

/-- Concrete fixture: adm2 district ZZ disjoint from every adm1 region. -/
def featZZ : Feature := { shapeID := "ZZ", shapeName := "District ZZ", geom := ⟨{20, 21}⟩ }

/-- The selected assignment row for district B in the fixture: parent X with
overlap 3/5. -/
def rowBX : OverlapRow :=
  { child := featB, parentID := "X", parentName := "Region X"
    parentGeom := featX.geom, overlap := 3 / 5 }

/-- The selected assignment row for district A in the fixture: parent X with
overlap 1. -/
def rowAX : OverlapRow :=
  { child := featA, parentID := "X", parentName := "Region X"
    parentGeom := featX.geom, overlap := 1 }

/-- Gate-violating input whose only offending child id is "QX". -/
def inpGateA : PipelineInput :=
  { fine := [featA, featQX], coarse := [featX, featY], treatment := [], rasters := [] }

/-- Gate-violating input whose only offending child id is "B" (B's geometry
here is cut down so its best overlap is 2/5). -/
def inpGateB : PipelineInput :=
  { fine := [featA, { shapeID := "B", shapeName := "District B", geom := ⟨{4, 8, 9, 10, 11}⟩ }]
    coarse := [featX, featY], treatment := [], rasters := [] }

/-- Input in which district ZZ intersects no adm1 region while every other
district passes the gate. -/
def inpOrphan : PipelineInput :=
  { fine := [featA, featZZ], coarse := [featX, featY], treatment := [], rasters := [] }

/-- A base row for the treatment-merge fixtures. -/
def rowS0 : OverlapRow :=
  { child := { shapeID := "S0", shapeName := "District S0", geom := ⟨{0}⟩ }
    parentID := "X", parentName := "Region X", parentGeom := featX.geom, overlap := 1 }

/-- Concrete raster for year 2020: label "forest" on cells 0,1,2 and
"urban" on cell 3. -/
def raster2020 : Raster := [(0, "forest"), (1, "forest"), (2, "forest"), (3, "urban")]

/-- Concrete raster for year 2021: label "forest" on cell 0 only. -/
def raster2021 : Raster := [(0, "forest")]

/-- Two merged rows for the zonal fixtures: districts A and B with parent X. -/
def mergedW : List MergedRow :=
  [{ row := rowAX, treatment := some 1 }, { row := rowBX, treatment := none }]

/-- Two raster sources with overlapping category labels ("forest" occurs in
both years). -/
def rastersW : List (ℕ × Raster) := [(2020, raster2020), (2021, raster2021)]

/-- A merged row whose polygon (district ZZ, cells {20,21}) has zero overlap
with `raster2020` (cells 0-3). -/
def mzzRow : MergedRow :=
  { row := { child := featZZ, parentID := "X", parentName := "Region X"
             parentGeom := featX.geom, overlap := 1 }
    treatment := none }

/-- Zonal fixture containing a polygon with raster coverage (district A) and
one without (district ZZ). -/
def mergedZeroW : List MergedRow :=
  [{ row := rowAX, treatment := some 1 }, mzzRow]

/-! ### Selection of the maximum-overlap parent (C1) -/

lemma foldl_max_eq_or_mem (rs : List OverlapRow) (b r : OverlapRow)
    (h : rs.foldl (fun acc x =>
      match acc with
      | none => some x
      | some y => some (betterRow y x)) (some b) = some r) :
    r = b ∨ r ∈ rs := by
  induction rs generalizing b with
  | nil => simp at h; exact Or.inl h.symm
  | cons a t ih =>
    simp only [List.foldl_cons] at h
    rcases ih (betterRow b a) h with h1 | h2
    · unfold betterRow at h1
      split at h1
      · exact Or.inr (h1 ▸ List.mem_cons_self a t)
      · exact Or.inl h1
    · exact Or.inr (List.mem_cons_of_mem a h2)

lemma firstMax_mem (rs : List OverlapRow) (r : OverlapRow)
    (h : firstMax rs = some r) : r ∈ rs := by
  unfold firstMax at h
  cases rs with
  | nil => simp at h
  | cons a t =>
    simp only [List.foldl_cons] at h
    rcases foldl_max_eq_or_mem t a r h with h1 | h2
    · exact h1 ▸ List.mem_cons_self a t
    · exact List.mem_cons_of_mem a h2

lemma betterRow_le_left (b r : OverlapRow) : b.overlap ≤ (betterRow b r).overlap := by
  unfold betterRow; split <;> [exact le_of_lt (by assumption); exact le_refl _]

lemma betterRow_le_right (b r : OverlapRow) : r.overlap ≤ (betterRow b r).overlap := by
  unfold betterRow; split
  · exact le_refl _
  · exact le_of_not_lt (by assumption)

lemma foldl_max_ge (rs : List OverlapRow) (b r : OverlapRow)
    (h : rs.foldl (fun acc x =>
      match acc with
      | none => some x
      | some y => some (betterRow y x)) (some b) = some r) :
    b.overlap ≤ r.overlap ∧ ∀ x ∈ rs, x.overlap ≤ r.overlap := by
  induction rs generalizing b with
  | nil =>
    simp at h
    subst h
    exact ⟨le_refl _, by simp⟩
  | cons a t ih =>
    simp only [List.foldl_cons] at h
    obtain ⟨h1, h2⟩ := ih (betterRow b a) h
    refine ⟨le_trans (betterRow_le_left b a) h1, ?_⟩
    intro x hx
    rcases List.mem_cons.mp hx with rfl | hx'
    · exact le_trans (betterRow_le_right b x) h1
    · exact h2 x hx'

lemma firstMax_ge (rs : List OverlapRow) (r : OverlapRow)
    (h : firstMax rs = some r) : ∀ x ∈ rs, x.overlap ≤ r.overlap := by
  unfold firstMax at h
  cases rs with
  | nil => simp at h
  | cons a t =>
    simp only [List.foldl_cons] at h
    obtain ⟨h1, h2⟩ := foldl_max_ge t a r h
    intro x hx
    rcases List.mem_cons.mp hx with rfl | hx'
    · exact h1
    · exact h2 x hx'

lemma selectMaxOverlap_subset (rows : List OverlapRow) (r : OverlapRow)
    (hr : r ∈ selectMaxOverlap rows) : r ∈ rows := by
  obtain ⟨cid, _, hf⟩ := List.mem_filterMap.mp hr
  exact (List.mem_filter.mp (firstMax_mem _ _ hf)).1

lemma selectMaxOverlap_key (rows : List OverlapRow) (cid : String) (r : OverlapRow)
    (hf : firstMax (rows.filter fun s => s.child.shapeID == cid) = some r) :
    r.child.shapeID = cid := by
  have := (List.mem_filter.mp (firstMax_mem _ _ hf)).2
  exact eq_of_beq this

lemma selectMaxOverlap_max (rows : List OverlapRow) (r : OverlapRow)
    (hr : r ∈ selectMaxOverlap rows) :
    ∀ s ∈ rows, s.child.shapeID = r.child.shapeID → s.overlap ≤ r.overlap := by
  obtain ⟨cid, _, hf⟩ := List.mem_filterMap.mp hr
  have hkey : r.child.shapeID = cid := selectMaxOverlap_key rows cid r hf
  intro s hs hsk
  refine firstMax_ge _ _ hf s (List.mem_filter.mpr ⟨hs, ?_⟩)
  simp [hsk, hkey]

lemma filterMap_count_zero (l : List String) (f : String → Option OverlapRow)
    (cid : String) (hf : ∀ c e, f c = some e → e.child.shapeID = c)
    (hcid : cid ∉ l) :
    ((l.filterMap f).filter fun s => s.child.shapeID == cid).length = 0 := by
  induction l with
  | nil => simp
  | cons a t ih =>
    have ha : a ≠ cid := fun h => hcid (h ▸ List.mem_cons_self a t)
    have ht : cid ∉ t := fun h => hcid (List.mem_cons_of_mem a h)
    cases hfa : f a with
    | none => simpa [List.filterMap_cons, hfa] using ih ht
    | some e =>
      have he : e.child.shapeID = a := hf a e hfa
      have hbeq : (e.child.shapeID == cid) = false := by
        rw [beq_eq_false_iff_ne, he]; exact ha
      simp only [List.filterMap_cons, hfa, List.filter_cons, hbeq, if_false]
      exact ih ht

lemma filterMap_count_one (l : List String) (f : String → Option OverlapRow)
    (cid : String) (r : OverlapRow)
    (hnd : l.Nodup) (hcid : cid ∈ l) (hfc : f cid = some r)
    (hf : ∀ c e, f c = some e → e.child.shapeID = c) :
    ((l.filterMap f).filter fun s => s.child.shapeID == cid).length = 1 := by
  induction l with
  | nil => simp at hcid
  | cons a t ih =>
    rcases List.mem_cons.mp hcid with rfl | hcid'
    · have hat : cid ∉ t := (List.nodup_cons.mp hnd).1
      have hkey : r.child.shapeID = cid := hf cid r hfc
      have hbeq : (r.child.shapeID == cid) = true := by simp [hkey]
      simp only [List.filterMap_cons, hfc, List.filter_cons, hbeq, if_true, List.length_cons]
      rw [filterMap_count_zero t f cid hf hat]
    · have ha : a ≠ cid := by
        intro h; subst h; exact (List.nodup_cons.mp hnd).1 hcid'
      have ht : t.Nodup := (List.nodup_cons.mp hnd).2
      cases hfa : f a with
      | none => simpa [List.filterMap_cons, hfa] using ih ht hcid'
      | some e =>
        have he : e.child.shapeID = a := hf a e hfa
        have hbeq : (e.child.shapeID == cid) = false := by
          rw [beq_eq_false_iff_ne, he]; exact ha
        simp only [List.filterMap_cons, hfa, List.filter_cons, hbeq, if_false]
        exact ih ht hcid'

lemma selectMaxOverlap_unique (rows : List OverlapRow) (r : OverlapRow)
    (hr : r ∈ selectMaxOverlap rows) :
    ((selectMaxOverlap rows).filter fun s => s.child.shapeID == r.child.shapeID).length = 1 := by
  obtain ⟨cid, hc, hf⟩ := List.mem_filterMap.mp hr
  have hkey : r.child.shapeID = cid := selectMaxOverlap_key rows cid r hf
  rw [hkey]
  exact filterMap_count_one (childIDs rows) _ cid r (List.nodup_dedup _) hc hf
    (fun c e he => selectMaxOverlap_key rows c e he)

lemma overlapRows_formula (fine coarse : List Feature) (r : OverlapRow)
    (hr : r ∈ overlapRows fine coarse) :
    r.overlap = (r.child.geom.inter r.parentGeom).area / r.child.geom.area := by
  obtain ⟨cp, _, rfl⟩ := List.mem_map.mp hr
  rfl

/-- C1: every fine (ADM2) polygon that receives a parent assignment has
`overlap_fraction = area(child ∩ parent) / area(child)`; no other
intersecting ADM1 candidate row for the same child has a strictly greater
fraction; and exactly one assignment survives selection per `child_id`
(`3_integrate.py` lines 48-61). -/
theorem overlap_selection_correct (fine coarse : List Feature) (r : OverlapRow)
    (hr : r ∈ selectMaxOverlap (overlapRows fine coarse)) :
    r.overlap = (r.child.geom.inter r.parentGeom).area / r.child.geom.area
    ∧ (∀ s ∈ overlapRows fine coarse, s.child.shapeID = r.child.shapeID →
        s.overlap ≤ r.overlap)
    ∧ ((selectMaxOverlap (overlapRows fine coarse)).filter
        fun s => s.child.shapeID == r.child.shapeID).length = 1 := by
  refine ⟨?_, ?_, ?_⟩
  · exact overlapRows_formula fine coarse r (selectMaxOverlap_subset _ r hr)
  · exact selectMaxOverlap_max _ r hr
  · exact selectMaxOverlap_unique _ r hr

unseal Rat.mul Rat.inv Rat.add in
theorem overlap_selection_correct_witness :
    rowBX ∈ selectMaxOverlap (overlapRows [featA, featB] [featX, featY])
    ∧ (rowBX.overlap
        = (rowBX.child.geom.inter rowBX.parentGeom).area / rowBX.child.geom.area
      ∧ (∀ s ∈ overlapRows [featA, featB] [featX, featY],
          s.child.shapeID = rowBX.child.shapeID → s.overlap ≤ rowBX.overlap)
      ∧ ((selectMaxOverlap (overlapRows [featA, featB] [featX, featY])).filter
          fun s => s.child.shapeID == rowBX.child.shapeID).length = 1) :=
  ⟨by decide, overlap_selection_correct [featA, featB] [featX, featY] rowBX (by decide)⟩

/-! ### The 0.5 overlap gate (C2) -/

unseal Rat.mul Rat.inv Rat.add in
/-- C2 counterexample: the assert fires before any file is written, but its
message is the same fixed string for two runs whose offending child ids
differ ("QX" in the first input, "B" in the second), and that string shares
no character with the offending id "QX" — so the error does not identify the
offending `child_id`(s). -/
theorem gate_error_does_not_name_offender :
    (runPipeline inpGateA).error = some assertMsg
    ∧ (runPipeline inpGateB).error = some assertMsg
    ∧ (∃ r ∈ selectMaxOverlap (overlapRows inpGateA.fine inpGateA.coarse),
        r.overlap ≤ 1 / 2 ∧ r.child.shapeID = "QX")
    ∧ (∀ r ∈ selectMaxOverlap (overlapRows inpGateA.fine inpGateA.coarse),
        r.overlap ≤ 1 / 2 → r.child.shapeID = "QX")
    ∧ (∃ r ∈ selectMaxOverlap (overlapRows inpGateB.fine inpGateB.coarse),
        r.overlap ≤ 1 / 2 ∧ r.child.shapeID = "B")
    ∧ assertMsg.toList.contains 'Q' = false
    ∧ assertMsg.toList.contains 'X' = false := by decide

/-- C2 (amended): if any selected `overlap_fraction` is ≤ 0.5 the pipeline
raises before any output file is written — no partial output, no final
table — with the fixed assert message (which does not name the offending
child ids). -/
theorem gate_blocks_output (inp : PipelineInput)
    (h : ∃ r ∈ selectMaxOverlap (overlapRows inp.fine inp.coarse), r.overlap ≤ 1 / 2) :
    (runPipeline inp).error = some assertMsg
    ∧ (runPipeline inp).written = []
    ∧ (runPipeline inp).table = none := by
  obtain ⟨r, hr, hle⟩ := h
  have hall : (selectMaxOverlap (overlapRows inp.fine inp.coarse)).all
      (fun s => decide ((1 : ℚ) / 2 < s.overlap)) = false := by
    rw [List.all_eq_false]
    exact ⟨r, hr, by simpa using not_lt.mpr hle⟩
  have hg : gatePasses (selectMaxOverlap (overlapRows inp.fine inp.coarse)) = false := by
    unfold gatePasses
    rw [hall, Bool.and_false]
  simp [runPipeline, hg]

unseal Rat.mul Rat.inv Rat.add in
theorem gate_blocks_output_witness :
    (∃ r ∈ selectMaxOverlap (overlapRows inpGateA.fine inpGateA.coarse), r.overlap ≤ 1 / 2)
    ∧ ((runPipeline inpGateA).error = some assertMsg
      ∧ (runPipeline inpGateA).written = []
      ∧ (runPipeline inpGateA).table = none) :=
  ⟨by decide, gate_blocks_output inpGateA (by decide)⟩

/-! ### Fine polygons with no intersecting coarse polygon (C3) -/

unseal Rat.mul Rat.inv Rat.add in
/-- C3 counterexample: district ZZ intersects no adm1 region, yet the run
raises no error, writes both output files, and simply contains no
assignment for ZZ — the polygon is silently dropped by the inner spatial
join rather than failing fast. -/
theorem orphan_silently_dropped :
    (∀ p ∈ inpOrphan.coarse, featZZ.geom.intersects p.geom = false)
    ∧ featZZ ∈ inpOrphan.fine
    ∧ (runPipeline inpOrphan).error = none
    ∧ (runPipeline inpOrphan).written = [outputCsvPath, outputGeojsonPath]
    ∧ (∀ r ∈ selectMaxOverlap (overlapRows inpOrphan.fine inpOrphan.coarse),
        r.child.shapeID ≠ "ZZ") := by decide

lemma flatMap_erase_of_eq_nil {α β : Type} [DecidableEq α] (l : List α)
    (f : α → List β) (a : α) (ha : f a = []) :
    (l.erase a).flatMap f = l.flatMap f := by
  induction l with
  | nil => rfl
  | cons x t ih =>
    rw [List.erase_cons]
    by_cases hx : x = a
    · subst hx
      simp only [beq_self_eq_true, if_true, List.flatMap_cons, ha, List.nil_append]
    · rw [if_neg (by simp [hx])]
      rw [List.flatMap_cons, List.flatMap_cons, ih]

/-- C3 (amended): a fine polygon that intersects no coarse polygon is
silently dropped by the `how="inner"` spatial join — the entire run is
indistinguishable from a run on the input with that polygon removed: same
error behaviour, same files written, same output table. -/
theorem orphan_no_effect (inp : PipelineInput) (f : Feature)
    (h : ∀ p ∈ inp.coarse, f.geom.intersects p.geom = false) :
    runPipeline inp = runPipeline { inp with fine := inp.fine.erase f } := by
  obtain ⟨fi, co, tr, ra⟩ := inp
  have hno : ∀ p ∈ co, ¬(f.geom.intersects p.geom = true) := by
    intro p hp
    rw [h p hp]
    exact Bool.false_ne_true
  have hKf : ((co.filter fun p => f.geom.intersects p.geom).map fun p => (f, p)) = [] := by
    rw [List.filter_eq_nil_iff.mpr hno, List.map_nil]
  have hrows : overlapRows (fi.erase f) co = overlapRows fi co := by
    unfold overlapRows sjoinPairs
    rw [flatMap_erase_of_eq_nil fi _ f hKf]
  simp only [runPipeline, hrows]

unseal Rat.mul Rat.inv Rat.add in
theorem orphan_no_effect_witness :
    (∀ p ∈ inpOrphan.coarse, featZZ.geom.intersects p.geom = false)
    ∧ runPipeline inpOrphan
        = runPipeline { inpOrphan with fine := inpOrphan.fine.erase featZZ } :=
  ⟨by decide, orphan_no_effect inpOrphan featZZ (by decide)⟩

/-! ### The treatment left-merge (C4, C5) -/

lemma find?_eq_head?_filter {α : Type} (p : α → Bool) (l : List α) :
    l.find? p = (l.filter p).head? := by
  induction l with
  | nil => rfl
  | cons a t ih =>
    by_cases h : p a = true
    · rw [List.find?_cons_of_pos _ h, List.filter_cons_of_pos h]
      rfl
    · rw [List.find?_cons_of_neg _ h, List.filter_cons_of_neg h, ih]

lemma filter_key_len_le_one (tr : List (String × Int))
    (hnd : (tr.map Prod.fst).Nodup) (k : String) :
    (tr.filter fun t => t.1 == k).length ≤ 1 := by
  induction tr with
  | nil => simp
  | cons a t ih =>
    rw [List.map_cons, List.nodup_cons] at hnd
    obtain ⟨hna, hnd'⟩ := hnd
    by_cases hk : a.1 = k
    · subst hk
      have hnone : ∀ b ∈ t, ¬(b.1 == a.1) = true := by
        intro b hb hbeq
        exact hna (List.mem_map.mpr ⟨b, hb, eq_of_beq hbeq⟩)
      simp [List.filter_cons, List.filter_eq_nil_iff.mpr hnone]
    · have hb : (a.1 == k) = false := beq_eq_false_iff_ne.mpr hk
      simp only [List.filter_cons, hb, if_false]
      exact ih hnd'

lemma leftMergeTreatment_closed (base : List OverlapRow) (tr : List (String × Int))
    (hnd : (tr.map Prod.fst).Nodup) :
    leftMergeTreatment base tr = base.map fun b =>
      { row := b
        treatment := (tr.find? fun t => t.1 == b.child.shapeID).map Prod.snd } := by
  induction base with
  | nil => rfl
  | cons b rest ih =>
    have hseg : (if (tr.filter fun t => t.1 == b.child.shapeID).isEmpty then
          [({ row := b, treatment := none } : MergedRow)]
        else
          (tr.filter fun t => t.1 == b.child.shapeID).map fun m =>
            { row := b, treatment := some m.2 })
        = [{ row := b
             treatment := (tr.find? fun t => t.1 == b.child.shapeID).map Prod.snd }] := by
      rw [find?_eq_head?_filter]
      cases hfil : tr.filter (fun t => t.1 == b.child.shapeID) with
      | nil => simp
      | cons m ms =>
        have hlen : (tr.filter fun t => t.1 == b.child.shapeID).length ≤ 1 :=
          filter_key_len_le_one tr hnd b.child.shapeID
        rw [hfil] at hlen
        have hms : ms = [] := by
          cases ms with
          | nil => rfl
          | cons _ _ => simp at hlen
        subst hms
        simp
    unfold leftMergeTreatment
    simp only [List.flatMap_cons]
    unfold leftMergeTreatment at ih
    rw [hseg, ih, List.map_cons, List.singleton_append]

/-- C4: with well-formed (duplicate-free) attribute keys, the treatment
merge is a left outer join on `shape_id` that never drops a base row — the
result lists exactly the base rows in order (hence has the same row count) —
and a base row with no matching treatment record is retained with the
treatment column an explicit missing marker (`none`), not 0
(`3_integrate.py` lines 74-75). -/
theorem treatment_merge_left_join (base : List OverlapRow) (tr : List (String × Int))
    (hnd : (tr.map Prod.fst).Nodup) :
    ((leftMergeTreatment base tr).map (fun m => m.row) = base)
    ∧ (leftMergeTreatment base tr).length = base.length
    ∧ ∀ b ∈ base, (∀ t ∈ tr, t.1 ≠ b.child.shapeID) →
        ({ row := b, treatment := none } : MergedRow) ∈ leftMergeTreatment base tr := by
  rw [leftMergeTreatment_closed base tr hnd]
  refine ⟨?_, by simp, ?_⟩
  · rw [List.map_map]
    simp [Function.comp_def]
  intro b hb hno
  have hfind : (tr.find? fun t => t.1 == b.child.shapeID) = none := by
    rw [List.find?_eq_none]
    intro t ht hbeq
    exact hno t ht (eq_of_beq hbeq)
  refine List.mem_map.mpr ⟨b, hb, ?_⟩
  rw [hfind]
  rfl

unseal Rat.mul Rat.inv Rat.add in
theorem treatment_merge_left_join_witness :
    (([("S1", (1 : Int))].map Prod.fst).Nodup)
    ∧ (((leftMergeTreatment [rowS0] [("S1", 1)]).map (fun m => m.row) = [rowS0])
      ∧ (leftMergeTreatment [rowS0] [("S1", 1)]).length = [rowS0].length
      ∧ ∀ b ∈ [rowS0], (∀ t ∈ [("S1", (1 : Int))], t.1 ≠ b.child.shapeID) →
          ({ row := b, treatment := none } : MergedRow) ∈ leftMergeTreatment [rowS0] [("S1", 1)]) :=
  ⟨by decide, treatment_merge_left_join [rowS0] [("S1", 1)] (by decide)⟩

unseal Rat.mul Rat.inv Rat.add in
/-- C5 counterexample: an attributes table with the key "S0" twice is not
rejected — the merge silently emits one row per duplicate record,
duplicating the single base row into two output rows. -/
theorem duplicate_key_duplicates_rows :
    leftMergeTreatment [rowS0] [("S0", 0), ("S0", 1)]
      = [{ row := rowS0, treatment := some 0 }, { row := rowS0, treatment := some 1 }]
    ∧ (leftMergeTreatment [rowS0] [("S0", 0), ("S0", 1)]).length = 2
    ∧ ¬(([("S0", (0 : Int)), ("S0", 1)].map Prod.fst).Nodup) := by decide

/-- C5 (amended): duplicate `shape_id`s in the attributes table are not
rejected as an error; the left merge emits one output row per matching
attribute record (and one NaN row when there is no match), so each base row
is duplicated `max 1 k` times where `k` is its key's multiplicity. -/
theorem duplicate_key_multiplies (base : List OverlapRow) (tr : List (String × Int)) :
    (leftMergeTreatment base tr).length
      = (base.map fun b => max 1 (tr.countP fun t => t.1 == b.child.shapeID)).sum := by
  induction base with
  | nil => rfl
  | cons b rest ih =>
    unfold leftMergeTreatment
    simp only [List.flatMap_cons, List.length_append]
    unfold leftMergeTreatment at ih
    rw [ih, List.map_cons, List.sum_cons]
    congr 1
    rw [List.countP_eq_length_filter]
    cases hfil : tr.filter (fun t => t.1 == b.child.shapeID) with
    | nil => simp
    | cons m ms =>
      simp only [hfil, List.isEmpty_cons, if_false, List.length_map, List.length_cons,
        Bool.false_eq_true]
      rw [Nat.max_eq_right (Nat.succ_le_succ (Nat.zero_le _))]

/-! ### The zonal-statistics fold (C6, C7) -/

lemma stat_beq_base (y : ℕ) (l s : String) : (Col.stat y l == Col.base s) = false := by
  rw [beq_eq_false_iff_ne]
  intro h
  exact Col.noConfusion h

lemma stat_not_mem_baseCols (y : ℕ) (l : String) : Col.stat y l ∉ baseCols := by
  intro h
  simp [baseCols] at h

lemma keepCol_stat (y : ℕ) (l : String) : keepCol (Col.stat y l) = true := by
  unfold keepCol
  have h : baseCols.contains (Col.stat y l) = false := by
    rw [← Bool.not_eq_true]
    intro hc
    exact stat_not_mem_baseCols y l (List.elem_iff.mp hc)
  rw [h]
  rfl

lemma mergedRowToRow_cols (m : MergedRow) : (mergedRowToRow m).map Prod.fst = baseCols := rfl

lemma fill_rawStatVal (g : Geom) (raster : Raster) (l : String) :
    (if rawStatVal g raster l = Val.missing then Val.num 0 else rawStatVal g raster l)
      = Val.num (catCount g raster l) := by
  unfold rawStatVal
  by_cases h : catCount g raster l = 0
  · simp [h]
  · simp [h]

lemma zonal_row_closed (year : ℕ) (raster : Raster) (labels : List String) (m : MergedRow) :
    filterTmpRow (fillnaRow (tmpRowRaw year raster labels m))
      = (idField, Val.str m.row.child.shapeID)
        :: labels.map fun l => (Col.stat year l, Val.num (catCount m.row.child.geom raster l)) := by
  unfold tmpRowRaw fillnaRow filterTmpRow
  rw [List.map_append, List.filter_append]
  have hbase : List.filter (fun cv => keepCol cv.1)
      (List.map (fun cv => (cv.1, if cv.2 = Val.missing then Val.num 0 else cv.2))
        (mergedRowToRow m))
      = [(idField, Val.str m.row.child.shapeID)] := rfl
  have hstats : List.filter (fun cv => keepCol cv.1)
      (List.map (fun cv => (cv.1, if cv.2 = Val.missing then Val.num 0 else cv.2))
        (labels.map fun l => (Col.stat year l, rawStatVal m.row.child.geom raster l)))
      = labels.map fun l => (Col.stat year l, Val.num (catCount m.row.child.geom raster l)) := by
    rw [List.map_map]
    rw [List.filter_eq_self.mpr]
    · apply List.map_congr_left
      intro l _
      simp only [Function.comp_apply]
      rw [fill_rawStatVal]
    · intro x hx
      obtain ⟨l, _, rfl⟩ := List.mem_map.mp hx
      exact keepCol_stat year l
  rw [hbase, hstats, List.singleton_append]

lemma zonalTmp_closed (merged : List MergedRow) (year : ℕ) (raster : Raster) :
    zonalTmp merged year raster = merged.map fun m =>
      (idField, Val.str m.row.child.shapeID) :: statPairsFor merged (year, raster) m := by
  unfold zonalTmp statPairsFor
  apply List.map_congr_left
  intro m _
  exact zonal_row_closed year raster (statLabels merged raster) m

lemma rowKey_base_row (m : MergedRow) (g : Row) :
    rowKey (mergedRowToRow m ++ g) = some (Val.str m.row.child.shapeID) := by
  unfold rowKey
  rw [List.find?_append]
  have h : (mergedRowToRow m).find? (fun cv => cv.1 == idField)
      = some (Col.base "shapeID_adm2", Val.str m.row.child.shapeID) := rfl
  rw [h, Option.or_some]
  rfl

lemma rowKey_tmp_row (merged : List MergedRow) (yr : ℕ × Raster) (m : MergedRow) :
    rowKey ((idField, Val.str m.row.child.shapeID) :: statPairsFor merged yr m)
      = some (Val.str m.row.child.shapeID) := by
  unfold rowKey
  rw [List.find?_cons_of_pos _ (by rfl)]
  rfl

lemma someStr_beq (a b : String) :
    ((some (Val.str a) : Option Val) == some (Val.str b)) = (a == b) := by
  by_cases h : a = b
  · subst h; simp
  · have h1 : (a == b) = false := beq_eq_false_iff_ne.mpr h
    have h2 : ((some (Val.str a) : Option Val) == some (Val.str b)) = false := by
      rw [beq_eq_false_iff_ne]
      intro hc
      apply h
      have := Option.some.inj hc
      exact Val.str.inj this
    rw [h1, h2]

lemma mergeTwoRows_tmp (lr : Row) (merged : List MergedRow) (yr : ℕ × Raster)
    (m : MergedRow) (v : Val) :
    mergeTwoRows lr ((idField, v) :: statPairsFor merged yr m)
      = lr ++ statPairsFor merged yr m := by
  unfold mergeTwoRows
  rw [List.filter_cons_of_neg (by simp)]
  congr 1
  rw [List.filter_eq_self.mpr]
  intro x hx
  obtain ⟨l, _, rfl⟩ := List.mem_map.mp hx
  have : ((Col.stat yr.1 l : Col) == idField) = false := stat_beq_base yr.1 l "shapeID_adm2"
  simp [bne, this]

lemma filter_key_singleton (merged : List MergedRow) (m : MergedRow)
    (hids : (merged.map fun x => x.row.child.shapeID).Nodup) (hm : m ∈ merged) :
    (merged.filter fun x => x.row.child.shapeID == m.row.child.shapeID) = [m] := by
  induction merged with
  | nil => cases hm
  | cons a t ih =>
    rw [List.map_cons, List.nodup_cons] at hids
    obtain ⟨hna, hnd'⟩ := hids
    rcases List.mem_cons.mp hm with rfl | hm'
    · rw [List.filter_cons_of_pos (by simp)]
      have hnil : (t.filter fun x => x.row.child.shapeID == m.row.child.shapeID) = [] := by
        rw [List.filter_eq_nil_iff]
        intro x hx hbeq
        exact hna (List.mem_map.mpr ⟨x, hx, eq_of_beq hbeq⟩)
      rw [hnil]
    · have hne : (a.row.child.shapeID == m.row.child.shapeID) = false := by
        rw [beq_eq_false_iff_ne]
        intro hc
        exact hna (hc ▸ List.mem_map.mpr ⟨m, hm', rfl⟩)
      rw [List.filter_cons_of_neg (by simp [hne])]
      exact ih hnd' hm'

lemma flatten_singletons {α β : Type} (l : List α) (h : α → β) :
    (l.map fun a => [h a]).flatten = l.map h := by
  induction l with
  | nil => rfl
  | cons a t ih => simp [ih]

lemma innerMergeT_step (merged : List MergedRow) (yr : ℕ × Raster) (g : MergedRow → Row)
    (hids : (merged.map fun x => x.row.child.shapeID).Nodup) :
    innerMergeT (merged.map fun m => mergedRowToRow m ++ g m) (zonalTmp merged yr.1 yr.2)
      = merged.map fun m => (mergedRowToRow m ++ g m) ++ statPairsFor merged yr m := by
  unfold innerMergeT
  rw [zonalTmp_closed, List.flatMap_map, List.flatMap_def]
  have hpt : ∀ m ∈ merged,
      (((merged.map fun x =>
          (idField, Val.str x.row.child.shapeID) :: statPairsFor merged (yr.1, yr.2) x).filter
            fun rr => rowKey rr == rowKey (mergedRowToRow m ++ g m)).map
          fun rr => mergeTwoRows (mergedRowToRow m ++ g m) rr)
      = [(mergedRowToRow m ++ g m) ++ statPairsFor merged yr m] := by
    intro m hm
    rw [rowKey_base_row, List.filter_map]
    have hcongr : (merged.filter fun x =>
          ((fun rr => rowKey rr == some (Val.str m.row.child.shapeID)) ∘
            fun x => (idField, Val.str x.row.child.shapeID) :: statPairsFor merged (yr.1, yr.2) x) x)
        = merged.filter fun x => x.row.child.shapeID == m.row.child.shapeID := by
      apply List.filter_congr
      intro x _
      simp only [Function.comp_apply]
      rw [rowKey_tmp_row, someStr_beq]
    rw [hcongr, filter_key_singleton merged m hids hm]
    rw [List.map_cons, List.map_nil, List.map_cons, List.map_nil]
    rw [mergeTwoRows_tmp]
  rw [List.map_congr_left hpt, flatten_singletons]

lemma zonalFold_closed_general (merged : List MergedRow) (rs : List (ℕ × Raster))
    (g : MergedRow → Row)
    (hids : (merged.map fun x => x.row.child.shapeID).Nodup) :
    (rs.map fun yr => zonalTmp merged yr.1 yr.2).foldl innerMergeT
        (merged.map fun m => mergedRowToRow m ++ g m)
      = merged.map fun m => mergedRowToRow m
          ++ (g m ++ ((rs.map fun yr => statPairsFor merged yr m).flatten)) := by
  induction rs generalizing g with
  | nil => simp
  | cons yr rest ih =>
    rw [List.map_cons, List.foldl_cons, innerMergeT_step merged yr g hids]
    have hassoc : (merged.map fun m => (mergedRowToRow m ++ g m) ++ statPairsFor merged yr m)
        = merged.map fun m => mergedRowToRow m ++ (g m ++ statPairsFor merged yr m) := by
      apply List.map_congr_left
      intro m _
      rw [List.append_assoc]
    rw [hassoc, ih fun m => g m ++ statPairsFor merged yr m]
    apply List.map_congr_left
    intro m _
    simp [List.append_assoc]

lemma zonalFold_closed (merged : List MergedRow) (rasters : List (ℕ × Raster))
    (hids : (merged.map fun x => x.row.child.shapeID).Nodup) :
    zonalFold merged rasters = merged.map fun m =>
      mergedRowToRow m ++ ((rasters.map fun yr => statPairsFor merged yr m).flatten) := by
  unfold zonalFold
  have hinit : merged.map mergedRowToRow
      = merged.map fun m => mergedRowToRow m ++ (fun _ : MergedRow => ([] : Row)) m := by
    apply List.map_congr_left
    intro m _
    simp
  rw [hinit, zonalFold_closed_general merged rasters _ hids]
  apply List.map_congr_left
  intro m _
  simp

lemma accumAfter_closed (merged : List MergedRow) (rasters : List (ℕ × Raster)) (k : ℕ)
    (hids : (merged.map fun x => x.row.child.shapeID).Nodup) :
    accumAfter merged rasters k = merged.map fun m =>
      mergedRowToRow m ++ (((rasters.take k).map fun yr => statPairsFor merged yr m).flatten) := by
  unfold accumAfter
  have hinit : merged.map mergedRowToRow
      = merged.map fun m => mergedRowToRow m ++ (fun _ : MergedRow => ([] : Row)) m := by
    apply List.map_congr_left
    intro m _
    simp
  rw [hinit, zonalFold_closed_general merged (rasters.take k) _ hids]
  apply List.map_congr_left
  intro m _
  simp

lemma statPairsFor_cols (merged : List MergedRow) (yr : ℕ × Raster) (m : MergedRow) :
    (statPairsFor merged yr m).map Prod.fst = (statLabels merged yr.2).map (Col.stat yr.1) := by
  unfold statPairsFor
  rw [List.map_map]
  rfl

lemma nodup_get_not_mem_take {α : Type} (l : List α) (hnd : l.Nodup) (k : ℕ)
    (hk : k < l.length) :
    l.get ⟨k, hk⟩ ∉ l.take k := by
  intro hmem
  have hlen : 0 < (l.drop k).length := by
    rw [List.length_drop]
    omega
  have h2 : l.get ⟨k, hk⟩ ∈ l.drop k := by
    have hg := List.getElem_mem (l := l.drop k) (n := 0) hlen
    rw [List.getElem_drop] at hg
    simpa using hg
  have hsplit : (l.take k ++ l.drop k).Nodup := by
    rw [List.take_append_drop]
    exact hnd
  exact (List.disjoint_of_nodup_append hsplit) hmem h2

/-- C6: at every step of the zonal fold, every column of the new (filtered)
per-raster result that is already present in the accumulating table is the
join key `id_field` — every other colliding column was dropped by the filter
of line 110.  Consequently the final inner-join fold has duplicate-free
columns in every row, and every first-source (`results[0]`) column keeps its
original value unchanged in the final table (`3_integrate.py` lines
109-116). -/
theorem zonal_fold_no_collision (merged : List MergedRow) (rasters : List (ℕ × Raster))
    (hids : (merged.map fun x => x.row.child.shapeID).Nodup)
    (hyears : (rasters.map Prod.fst).Nodup) :
    (∀ k, ∀ hk : k < rasters.length,
      ∀ acc ∈ accumAfter merged rasters k,
        ∀ tmp ∈ zonalTmp merged (rasters.get ⟨k, hk⟩).1 (rasters.get ⟨k, hk⟩).2,
          ∀ c ∈ tmp.map Prod.fst, c ∈ acc.map Prod.fst → c = idField)
    ∧ (∀ row ∈ zonalFold merged rasters, (row.map Prod.fst).Nodup)
    ∧ (∀ m ∈ merged, ∃ row ∈ zonalFold merged rasters,
        ∀ c ∈ baseCols,
          row.find? (fun cv => cv.1 == c) = (mergedRowToRow m).find? fun cv => cv.1 == c) := by
  refine ⟨?_, ?_, ?_⟩
  · intro k hk acc hacc tmp htmp c hc hcacc
    rw [accumAfter_closed merged rasters k hids] at hacc
    obtain ⟨m, hm, rfl⟩ := List.mem_map.mp hacc
    rw [zonalTmp_closed] at htmp
    obtain ⟨x, hx, rfl⟩ := List.mem_map.mp htmp
    rw [List.map_cons] at hc
    rcases List.mem_cons.mp hc with rfl | hc'
    · rfl
    · exfalso
      rw [statPairsFor_cols] at hc'
      obtain ⟨l, hl, rfl⟩ := List.mem_map.mp hc'
      rw [List.map_append, mergedRowToRow_cols] at hcacc
      rcases List.mem_append.mp hcacc with hbase | hstat
      · exact stat_not_mem_baseCols _ _ hbase
      · rw [List.map_flatten, List.map_map] at hstat
        obtain ⟨inner, hinner, hcin⟩ := List.mem_flatten.mp hstat
        obtain ⟨yr, hyr, rfl⟩ := List.mem_map.mp hinner
        simp only [Function.comp_apply] at hcin
        rw [statPairsFor_cols] at hcin
        obtain ⟨l2, _, heq⟩ := List.mem_map.mp hcin
        have hyeq : yr.1 = (rasters.get ⟨k, hk⟩).1 := by
          injection heq with hy _
        have hmem : (rasters.get ⟨k, hk⟩).1 ∈ (rasters.take k).map Prod.fst :=
          hyeq ▸ List.mem_map.mpr ⟨yr, hyr, rfl⟩
        rw [List.map_take] at hmem
        have hk2 : k < (rasters.map Prod.fst).length := by
          rw [List.length_map]
          exact hk
        have hget : (rasters.map Prod.fst).get ⟨k, hk2⟩ = (rasters.get ⟨k, hk⟩).1 := by
          rw [List.get_map]
        exact nodup_get_not_mem_take (rasters.map Prod.fst) hyears k hk2
          (by rw [hget]; exact hmem)
  · intro row hrow
    rw [zonalFold_closed merged rasters hids] at hrow
    obtain ⟨m, hm, rfl⟩ := List.mem_map.mp hrow
    rw [List.map_append, mergedRowToRow_cols, List.map_flatten, List.map_map]
    apply List.Nodup.append
    · decide
    · rw [List.nodup_flatten]
      constructor
      · intro inner hinner
        obtain ⟨yr, hyr, rfl⟩ := List.mem_map.mp hinner
        simp only [Function.comp_apply]
        rw [statPairsFor_cols]
        apply List.Nodup.map
        · intro a b hab
          injection hab
        · exact List.nodup_dedup _
      · rw [List.pairwise_map]
        have hpair : List.Pairwise (fun a b : ℕ × Raster => a.1 ≠ b.1) rasters :=
          List.pairwise_map.mp hyears
        apply hpair.imp
        intro a b hab
        intro c hca hcb
        simp only [Function.comp_apply] at hca hcb
        rw [statPairsFor_cols] at hca hcb
        obtain ⟨l1, _, rfl⟩ := List.mem_map.mp hca
        obtain ⟨l2, _, heq⟩ := List.mem_map.mp hcb
        injection heq with hy _
        exact hab hy.symm
    · intro c hcb hcf
      rw [List.mem_flatten] at hcf
      obtain ⟨inner, hinner, hcin⟩ := hcf
      obtain ⟨yr, _, rfl⟩ := List.mem_map.mp hinner
      simp only [Function.comp_apply] at hcin
      rw [statPairsFor_cols] at hcin
      obtain ⟨l, _, rfl⟩ := List.mem_map.mp hcin
      exact stat_not_mem_baseCols _ _ hcb
  · intro m hm
    refine ⟨mergedRowToRow m ++ ((rasters.map fun yr => statPairsFor merged yr m).flatten),
      ?_, ?_⟩
    · rw [zonalFold_closed merged rasters hids]
      exact List.mem_map.mpr ⟨m, hm, rfl⟩
    · intro c hc
      rw [List.find?_append]
      have hsome : ((mergedRowToRow m).find? fun cv => cv.1 == c).isSome := by
        rw [List.find?_isSome]
        have hmem : c ∈ (mergedRowToRow m).map Prod.fst := by
          rw [mergedRowToRow_cols]
          exact hc
        obtain ⟨cv, hcv, rfl⟩ := List.mem_map.mp hmem
        exact ⟨cv, hcv, by simp⟩
      obtain ⟨x, hx⟩ := Option.isSome_iff_exists.mp hsome
      rw [hx, Option.or_some]

unseal Rat.mul Rat.inv Rat.add in
theorem zonal_fold_no_collision_witness :
    ((mergedW.map fun x => x.row.child.shapeID).Nodup
      ∧ (rastersW.map Prod.fst).Nodup)
    ∧ ((∀ k, ∀ hk : k < rastersW.length,
        ∀ acc ∈ accumAfter mergedW rastersW k,
          ∀ tmp ∈ zonalTmp mergedW (rastersW.get ⟨k, hk⟩).1 (rastersW.get ⟨k, hk⟩).2,
            ∀ c ∈ tmp.map Prod.fst, c ∈ acc.map Prod.fst → c = idField)
      ∧ (∀ row ∈ zonalFold mergedW rastersW, (row.map Prod.fst).Nodup)
      ∧ (∀ m ∈ mergedW, ∃ row ∈ zonalFold mergedW rastersW,
          ∀ c ∈ baseCols,
            row.find? (fun cv => cv.1 == c) = (mergedRowToRow m).find? fun cv => cv.1 == c)) :=
  ⟨⟨by decide, by decide⟩, zonal_fold_no_collision mergedW rastersW (by decide) (by decide)⟩

/-- C7: a polygon whose geometry shares no cell with the raster gets a row
in the per-raster zonal result in which every category column of the table
is present with value 0 — not NaN, not absent, and no error is raised
(`3_integrate.py` lines 98-112: `zonal_stats` emits no key for absent
categories, `from_features` turns the missing keys into NaN, and
`fillna(0)` coerces them to 0). -/
theorem zero_overlap_all_zero (merged : List MergedRow) (year : ℕ) (raster : Raster)
    (m : MergedRow) (hm : m ∈ merged)
    (h : ∀ cl ∈ raster, cl.1 ∉ m.row.child.geom.cells) :
    ∃ row ∈ zonalTmp merged year raster,
      rowKey row = some (Val.str m.row.child.shapeID)
      ∧ ∀ l ∈ statLabels merged raster, (Col.stat year l, Val.num 0) ∈ row := by
  rw [zonalTmp_closed]
  refine ⟨(idField, Val.str m.row.child.shapeID) :: statPairsFor merged (year, raster) m,
    List.mem_map.mpr ⟨m, hm, rfl⟩, rowKey_tmp_row merged (year, raster) m, ?_⟩
  intro l hl
  have hcount : catCount m.row.child.geom raster l = 0 := by
    unfold catCount
    rw [List.length_eq_zero, List.filter_eq_nil_iff]
    intro cl hcl hb
    rw [Bool.and_eq_true] at hb
    exact h cl hcl (of_decide_eq_true hb.1)
  apply List.mem_cons_of_mem
  unfold statPairsFor
  refine List.mem_map.mpr ⟨l, hl, ?_⟩
  rw [hcount]
  simp

unseal Rat.mul Rat.inv Rat.add in
theorem zero_overlap_all_zero_witness :
    (mzzRow ∈ mergedZeroW ∧ ∀ cl ∈ raster2020, cl.1 ∉ mzzRow.row.child.geom.cells)
    ∧ ∃ row ∈ zonalTmp mergedZeroW 2020 raster2020,
        rowKey row = some (Val.str mzzRow.row.child.shapeID)
        ∧ ∀ l ∈ statLabels mergedZeroW raster2020, (Col.stat 2020 l, Val.num 0) ∈ row :=
  ⟨⟨by decide, by decide⟩,
    zero_overlap_all_zero mergedZeroW 2020 raster2020 mzzRow (by decide) (by decide)⟩

/-! ### The two-file export (C8) -/

/-- C8 counterexample: when the CSV write succeeds and the GeoJSON write
fails, the failure is surfaced (uncaught exception) but the already-written
CSV remains on disk — a partial export IS committed, contradicting the
claim that no partial output is ever committed. -/
theorem partial_export_committed :
    (exportResults true false).error = some "to_file failed"
    ∧ (exportResults true false).written = [outputCsvPath]
    ∧ (exportResults true false).written ≠ []
    ∧ (exportResults true false).written ≠ [outputCsvPath, outputGeojsonPath] := by
  decide

/-- C8 (amended): the exporter writes both files exactly when no error is
reported, and every failure is surfaced as an uncaught exception (never
silently swallowed); but there is no atomicity — when the second write
fails, the first file stays on disk, so a surfaced partial export is
possible. -/
theorem export_surfaces_failures (csvOk geoOk : Bool) :
    ((exportResults csvOk geoOk).error = none
      ↔ (exportResults csvOk geoOk).written = [outputCsvPath, outputGeojsonPath])
    ∧ ((exportResults csvOk geoOk).error.isSome = true
      ↔ (exportResults csvOk geoOk).written ≠ [outputCsvPath, outputGeojsonPath]) := by
  cases csvOk <;> cases geoOk <;> decide

/-! ### Idempotence of the boundary fetcher (C9) -/

/-- C9 evaluation at the failing input: because the `.gpkg` write is
commented out, a successful first run leaves only the `.geojson` and
`.meta.json` on disk; the second run's skip condition (which requires the
`.gpkg` to exist) then fails, and the item is re-downloaded and rewritten
instead of being skipped — the fetcher is not idempotent. -/
theorem rerun_not_skipped :
    (dl_gb_item "geoBoundaries-GHA-ADM2" false
        (dl_gb_item "geoBoundaries-GHA-ADM2" false []).files).downloaded = true
    ∧ "geoBoundaries-GHA-ADM2.geojson" ∈ (dl_gb_item "geoBoundaries-GHA-ADM2" false []).files
    ∧ "geoBoundaries-GHA-ADM2.meta.json" ∈ (dl_gb_item "geoBoundaries-GHA-ADM2" false []).files
    ∧ "geoBoundaries-GHA-ADM2.gpkg" ∉ (dl_gb_item "geoBoundaries-GHA-ADM2" false []).files := by
  decide

/-! ### `get_config` returning the exception object (C10) -/

/-- C10: when the configuration file does not exist, `get_config` returns
(rather than raises) a `FileNotFoundError` object, and every subsequent
subscript `config[key]` on that return value fails with a `TypeError`
(`'FileNotFoundError' object is not subscriptable`) instead of a
file-not-found error at load time (`config.py` lines 17-22). -/
theorem get_config_returns_exception (toml : List (String × List (String × String)))
    (path : String) (h : ∀ p ∈ toml, p.1 ≠ path) :
    get_config toml path
      = ConfigResult.fileNotFoundError "No TOML config file found for dataset."
    ∧ ∀ k, (get_config toml path).getItem k = .error .typeError := by
  have hfind : toml.find? (fun p => p.1 == path) = none := by
    rw [List.find?_eq_none]
    intro p hp hbeq
    exact h p hp (eq_of_beq hbeq)
  constructor
  · simp only [get_config, hfind]
  · intro k
    simp only [get_config, hfind]
    rfl

theorem get_config_returns_exception_witness :
    (∀ p ∈ [("other.toml", [("base_path", "/data")])], p.1 ≠ "config.toml")
    ∧ (get_config [("other.toml", [("base_path", "/data")])] "config.toml"
        = ConfigResult.fileNotFoundError "No TOML config file found for dataset."
      ∧ ∀ k, (get_config [("other.toml", [("base_path", "/data")])] "config.toml").getItem k
          = .error .typeError) :=
  ⟨by decide, get_config_returns_exception _ "config.toml" (by decide)⟩

end Gies
